import Mathlib

/-!
Shallow embedding of `snake_simulation_modified.py`: snakes of fixed length
on a 2D lattice with `wall` or `periodic` boundary conditions, sharing a
boolean occupancy map.  Coordinates are `Int` (Python integers may go
negative before the periodic normalization); the Python `%` on a positive
modulus agrees with `Int.emod`.  The only nondeterminism in the program is
`random.choice` over the allowed-direction list; it is modelled by an
explicit picking function `rng : List Direction → Direction`, which a run
of the Python program instantiates with choices satisfying
`rng l ∈ l` for the lists it is applied to.
-/

namespace SnakeSim

/-- The four travel directions of a snake. -/
inductive Direction where
  | north
  | east
  | south
  | west
deriving DecidableEq, Repr, Inhabited

/-- The direction universe `{'north', 'east', 'south', 'west'}` (source line 100). -/
def dirList : List Direction := [.north, .east, .south, .west]

/-- State of one snake: head coordinates `xpos`/`ypos`, body coordinate lists
`linexpos`/`lineypos` (head first, tail last), the direction chosen on the
last move, and the trapped flag (attributes set in `Snake.__init__`,
source lines 37-59; `symbol`, `color`, `orientation`, `length` only feed the
renderer or the constructor and carry no dynamics). -/
structure Snake where
  xpos : Int
  ypos : Int
  linexpos : List Int
  lineypos : List Int
  direction : Option Direction := none
  trapped : Bool := false
deriving DecidableEq, Repr, Inhabited

/-- The list `[start, start + step, ..., start + step * (n-1)]`, the value of
`np.arange(start, start + step * n, step)` for `step = 1` or `step = -1`. -/
def arangeStep (start step : Int) (n : Nat) : List Int :=
  (List.range n).map (fun (i : Nat) => start + step * (i : Int))

/-- Constructor `Snake.__init__` (source lines 37-59).  An unknown orientation
leaves the body attributes `linexpos`/`lineypos` unset in the Python code, so
the resulting object is unusable; that case is modelled as `none`. -/
def Snake.init (position : Int × Int) (orientation : String) (length : Nat) : Option Snake :=
  if orientation = "north" then
    some { xpos := position.1, ypos := position.2,
           linexpos := List.replicate length position.1,
           lineypos := arangeStep position.2 (-1) length }
  else if orientation = "south" then
    some { xpos := position.1, ypos := position.2,
           linexpos := List.replicate length position.1,
           lineypos := arangeStep position.2 1 length }
  else if orientation = "east" then
    some { xpos := position.1, ypos := position.2,
           linexpos := arangeStep position.1 (-1) length,
           lineypos := List.replicate length position.2 }
  else if orientation = "west" then
    some { xpos := position.1, ypos := position.2,
           linexpos := arangeStep position.1 1 length,
           lineypos := List.replicate length position.2 }
  else none

/-- The per-direction disallowed test of `Snake.move` (source lines 75-97):
under `wall` a direction is disallowed when the head is at the corresponding
edge or the destination cell is occupied; under `periodic` it is disallowed
when the wrapped (at the edge) or direct (otherwise) destination cell is
occupied; under any other boundary-condition string nothing is disallowed. -/
def disallowedDir (xmax ymax : Int) (bc : String) (occ : Int → Int → Bool)
    (s : Snake) : Direction → Bool
  | .north =>
    if bc = "wall" then
      decide (s.ypos = ymax) || occ s.xpos (s.ypos + 1)
    else if bc = "periodic" then
      (decide (s.ypos = ymax) && occ s.xpos ((s.ypos + 1) % ymax)) ||
      (decide (s.ypos < ymax) && occ s.xpos (s.ypos + 1))
    else false
  | .east =>
    if bc = "wall" then
      decide (s.xpos = xmax) || occ (s.xpos + 1) s.ypos
    else if bc = "periodic" then
      (decide (s.xpos = xmax) && occ ((s.xpos + 1) % xmax) s.ypos) ||
      (decide (s.xpos < xmax) && occ (s.xpos + 1) s.ypos)
    else false
  | .south =>
    if bc = "wall" then
      decide (s.ypos = 0) || occ s.xpos (s.ypos - 1)
    else if bc = "periodic" then
      (decide (s.ypos = 0) && occ s.xpos ((s.ypos - 1) % ymax)) ||
      (decide (0 < s.ypos) && occ s.xpos (s.ypos - 1))
    else false
  | .west =>
    if bc = "wall" then
      decide (s.xpos = 0) || occ (s.xpos - 1) s.ypos
    else if bc = "periodic" then
      (decide (s.xpos = 0) && occ ((s.xpos - 1) % xmax) s.ypos) ||
      (decide (0 < s.xpos) && occ (s.xpos - 1) s.ypos)
    else false

/-- The list of allowed directions,
`{'north','east','south','west'}.difference(disallowed)` (source line 100). -/
def allowedList (xmax ymax : Int) (bc : String) (occ : Int → Int → Bool)
    (s : Snake) : List Direction :=
  dirList.filter (fun d => !(disallowedDir xmax ymax bc occ s d))

/-- Application of the chosen direction to the head (source lines 111-126):
under `wall` the step is additionally guarded by the edge test, under
`periodic` it is unconditional, under any other string nothing moves. -/
def applyDir (xmax ymax : Int) (bc : String) (d : Direction) (s : Snake) : Snake :=
  match d with
  | .north => if (bc = "wall" ∧ s.ypos < ymax) ∨ bc = "periodic" then
                { s with ypos := s.ypos + 1 } else s
  | .east  => if (bc = "wall" ∧ s.xpos < xmax) ∨ bc = "periodic" then
                { s with xpos := s.xpos + 1 } else s
  | .south => if (bc = "wall" ∧ 0 < s.ypos) ∨ bc = "periodic" then
                { s with ypos := s.ypos - 1 } else s
  | .west  => if (bc = "wall" ∧ 0 < s.xpos) ∨ bc = "periodic" then
                { s with xpos := s.xpos - 1 } else s

/-- Body advance (source lines 129-132): prepend the current head coordinate
to each body list (`np.append(self.xpos, self.linexpos)`) and drop the last
entry (`np.delete(..., -1)`).  Note this runs before the periodic
normalization in the source. -/
def advanceBody (s : Snake) : Snake :=
  { s with linexpos := (s.xpos :: s.linexpos).dropLast,
           lineypos := (s.ypos :: s.lineypos).dropLast }

/-- The coordinate normalization of source lines 145-148: a coordinate not
exactly equal to `m` is reduced modulo `m` (Python `%`, i.e. `Int.emod`). -/
def wrapCoord (m x : Int) : Int :=
  if x ≠ m then x % m else x

/-- Head normalization (source lines 145-148), applied to both axes. -/
def normalize (xmax ymax : Int) (s : Snake) : Snake :=
  { s with xpos := wrapCoord xmax s.xpos, ypos := wrapCoord ymax s.ypos }

/-- `Snake.move` (source lines 61-148): compute the allowed directions; if none
remain set `trapped`; otherwise record the picked direction, step the head,
advance the body, and normalize the head coordinates. -/
def Snake.move (rng : List Direction → Direction) (xmax ymax : Int) (bc : String)
    (occ : Int → Int → Bool) (s : Snake) : Snake :=
  let allowed := allowedList xmax ymax bc occ s
  if allowed.length = 0 then
    { s with trapped := true }
  else
    normalize xmax ymax (advanceBody
      (applyDir xmax ymax bc (rng allowed) { s with direction := some (rng allowed) }))

/-- Pointwise update of the boolean occupancy array at one cell. -/
def setOcc (occ : Int → Int → Bool) (x y : Int) (v : Bool) : Int → Int → Bool :=
  fun a b => if a = x ∧ b = y then v else occ a b

/-- Mark a list of cells occupied, the effect of the numpy fancy assignment
`occupied[xs, ys] = True` on the paired index lists. -/
def markCells (occ : Int → Int → Bool) (cells : List (Int × Int)) : Int → Int → Bool :=
  cells.foldl (fun o c => setOcc o c.1 c.2 true) occ

/-- The grid: snakes, dimensions, boundary condition, step budget and the
shared occupancy map (attributes of `Grid.__init__`, source lines 164-172;
the matplotlib `point`/`lines` handles are rendering-only). -/
structure Grid where
  snakes : List Snake
  xmax : Int
  ymax : Int
  bc : String
  nSteps : Nat
  occupied : Int → Int → Bool

/-- `Grid.__init__` (source lines 155-183, plotting calls omitted): store the
parameters and mark every snake's head and body cells on an initially empty
occupancy array.  No validation of `bc` is performed. -/
def Grid.init (snakes : List Snake) (gridsize : Int × Int) (bc : String)
    (nSteps : Nat) : Grid :=
  { snakes := snakes
    xmax := gridsize.1
    ymax := gridsize.2
    bc := bc
    nSteps := nSteps
    occupied := snakes.foldl
      (fun o w => markCells (setOcc o w.xpos w.ypos true) (w.linexpos.zip w.lineypos))
      (fun _ _ => false) }

/-- The cells `Grid.go` marks occupied for a snake that is not trapped after
its move (source lines 199-216): the head, every body cell, and under
`periodic` the mirror cells of a head sitting on an edge. -/
def goWriteCells (xmax ymax : Int) (bc : String) (w : Snake) : List (Int × Int) :=
  ((w.xpos, w.ypos) :: w.linexpos.zip w.lineypos) ++
    (if bc = "periodic" then
      (if w.xpos = xmax then [((0 : Int), w.ypos)]
       else if w.xpos = 0 then [(xmax, w.ypos)] else []) ++
      (if w.ypos = ymax then [(w.xpos, (0 : Int))]
       else if w.ypos = 0 then [(w.xpos, ymax)] else [])
    else [])

/-- Processing of one snake inside the tick loop of `Grid.go` (source lines
194-216): clear the tail cell `(linexpos[-1], lineypos[-1])`, call `move`
against the resulting occupancy, and, when the snake did not end up trapped,
mark its new head, body and periodic mirror cells. -/
def goSnake (rng : List Direction → Direction) (xmax ymax : Int) (bc : String)
    (w : Snake) (occ : Int → Int → Bool) : Snake × (Int → Int → Bool) :=
  let occ1 := setOcc occ (w.linexpos.getLastD 0) (w.lineypos.getLastD 0) false
  let w' := w.move rng xmax ymax bc occ1
  if w'.trapped then (w', occ1)
  else (w', markCells occ1 (goWriteCells xmax ymax bc w'))

/-- One tick of `Grid.go` (source lines 193-216): every snake is processed in
insertion order, threading the shared occupancy map. -/
def tick (rng : List Direction → Direction) (g : Grid) : Grid :=
  let step := g.snakes.foldl
    (fun (acc : List Snake × (Int → Int → Bool)) w =>
      let r := goSnake rng g.xmax g.ymax g.bc w acc.2
      (acc.1 ++ [r.1], r.2))
    ([], g.occupied)
  { g with snakes := step.1, occupied := step.2 }

/-- `n` consecutive ticks. -/
def tickN (rng : List Direction → Direction) : Nat → Grid → Grid
  | 0, g => g
  | n + 1, g => tickN rng n (tick rng g)

/-- Whether every snake is trapped, `all([w.trapped for w in self.snakes])`
(source line 191). -/
def allTrapped (g : Grid) : Bool :=
  g.snakes.all (·.trapped)

/-- `Grid.go` (source lines 187-220).  The `while not all trapped` condition is
evaluated exactly once, because the inner `for j in range(nSteps)` loop is
followed by an unconditional `break`: if every snake is already trapped no
tick runs, otherwise exactly `nSteps` ticks run.  The second component is the
number of ticks the `for` loop executed. -/
def Grid.go (rng : List Direction → Direction) (g : Grid) : Grid × Nat :=
  if allTrapped g then (g, 0) else (tickN rng g.nSteps g, g.nSteps)

/-- Folding a per-tick sequence of direction pickers, boundary-condition
strings and occupancy snapshots over one snake's `move`. -/
def moveFold (xmax ymax : Int)
    (ticks : List ((List Direction → Direction) × String × (Int → Int → Bool)))
    (s : Snake) : Snake :=
  ticks.foldl (fun t p => t.move p.1 xmax ymax p.2.1 p.2.2) s

/-- Head within the inclusive lattice bounds `[0, xmax] × [0, ymax]`. -/
def inB (xmax ymax : Int) (s : Snake) : Prop :=
  0 ≤ s.xpos ∧ s.xpos ≤ xmax ∧ 0 ≤ s.ypos ∧ s.ypos ≤ ymax

/-- Spec-side destination cell of a single step, used to compare the computed
wall legality rule with the spec's wording ("the adjacent destination cell in
that direction"). -/
def destCell (s : Snake) : Direction → Int × Int
  | .north => (s.xpos, s.ypos + 1)
  | .east  => (s.xpos + 1, s.ypos)
  | .south => (s.xpos, s.ypos - 1)
  | .west  => (s.xpos - 1, s.ypos)

/-- Spec-side edge condition: the head is already at the edge limiting the
given direction. -/
def atEdge (xmax ymax : Int) (s : Snake) : Direction → Prop
  | .north => s.ypos = ymax
  | .east  => s.xpos = xmax
  | .south => s.ypos = 0
  | .west  => s.xpos = 0

/-- The everywhere-free occupancy map. -/
def occFree : Int → Int → Bool := fun _ _ => false

/-- A direction picker that always answers `east` (a possible behaviour of
`random.choice` whenever `east` is in the offered list). -/
def rngE : List Direction → Direction := fun _ => .east

/-- A direction picker that always answers `north`. -/
def rngN : List Direction → Direction := fun _ => .north

/-- A direction picker returning the first entry of the offered list; on any
non-empty list this is a possible behaviour of `random.choice`. -/
def rngH : List Direction → Direction := fun l => l.headD .north

/-- A snake constructed at `(10, 5)` with orientation `east` and length 2,
sitting with its head on the `x = xmax` edge of a 10×10 grid. -/
def sEast : Snake := ⟨10, 5, [10, 9], [5, 5], none, false⟩

/-- A 10×10 periodic grid holding `sEast`. -/
def gridPeriodic : Grid := Grid.init [sEast] (10, 10) "periodic" 1

/-- A length-4 snake in the lower-left corner of a wall grid, whose head at
`(0, 0)` is blocked by the two walls, its own body cell `(0, 1)` and the
cell `(1, 0)`. -/
def snakeA : Snake := ⟨0, 0, [0, 0, 1, 1], [0, 1, 1, 2], none, false⟩

/-- A length-1 snake sitting on `(1, 0)`, the east neighbour of `snakeA`'s
head; it can escape east and thereby frees `(1, 0)`. -/
def snakeB : Snake := ⟨1, 0, [1], [0], none, false⟩

/-- A 3×3 wall grid holding `snakeA` then `snakeB`, with a step budget of 2. -/
def gridWallAB : Grid := Grid.init [snakeA, snakeB] (3, 3) "wall" 2

/-- A length-5 snake coiled in the lower-left corner of a wall grid: its head
at `(0, 0)` is permanently blocked by the walls and its own body interior
cells `(0, 1)` and `(1, 0)`, so it traps on the first tick. -/
def snakeCoil : Snake := ⟨0, 0, [0, 0, 1, 1, 2], [0, 1, 1, 0, 0], none, false⟩

/-- A 3×3 wall grid holding only `snakeCoil`, with a step budget of 2. -/
def gridWallCoil : Grid := Grid.init [snakeCoil] (3, 3) "wall" 2

section Lemmas

/-- The head of a non-empty list is a member of it, so `rngH` is a legitimate
instance of `random.choice` on every list it is applied to. -/
theorem headD_mem {α : Type} (l : List α) (d : α) (h : l ≠ []) : l.headD d ∈ l := by
  cases l with
  | nil => exact absurd rfl h
  | cons a t => simp

/-- Normalization is the identity on a coordinate already in `[0, m]`. -/
theorem wrapCoord_id {m x : Int} (h0 : 0 ≤ x) (h1 : x ≤ m) : wrapCoord m x = x := by
  unfold wrapCoord
  split
  · next hne => exact Int.emod_eq_of_lt h0 (lt_of_le_of_ne h1 hne)
  · rfl

/-- Stepping a coordinate of `[0, m]` up and normalizing never returns to the
starting coordinate when `m ≥ 2`. -/
theorem wrapCoord_succ_ne {m x : Int} (h2 : 2 ≤ m) (h0 : 0 ≤ x) (h1 : x ≤ m) :
    wrapCoord m (x + 1) ≠ x := by
  unfold wrapCoord
  split
  · next hne =>
    rcases lt_or_eq_of_le h1 with h | h
    · rw [Int.emod_eq_of_lt (by omega) (by omega)]
      omega
    · subst h
      rw [show x + 1 = 1 + x * 1 by ring, Int.add_mul_emod_self_left,
        Int.emod_eq_of_lt (by norm_num) (by omega)]
      omega
  · omega

/-- Stepping a coordinate of `[0, m]` down and normalizing never returns to
the starting coordinate when `m ≥ 2`. -/
theorem wrapCoord_pred_ne {m x : Int} (h2 : 2 ≤ m) (h0 : 0 ≤ x) (h1 : x ≤ m) :
    wrapCoord m (x - 1) ≠ x := by
  unfold wrapCoord
  split
  · next hne =>
    rcases eq_or_lt_of_le h0 with h | h
    · rw [show x - 1 = (m - 1) + m * (-1) + (0 - x) by omega]
      rw [show (m - 1) + m * (-1) + (0 - x) = (m - 1) + m * (-1) by omega,
        Int.add_mul_emod_self_left, Int.emod_eq_of_lt (by omega) (by omega)]
      omega
    · rw [Int.emod_eq_of_lt (by omega) (by omega)]
      omega
  · omega

/-- Normalizing `m + 1` gives `1` when `m ≥ 2` (Python `(m+1) % m`). -/
theorem wrapCoord_max_succ {m : Int} (h2 : 2 ≤ m) : wrapCoord m (m + 1) = 1 := by
  unfold wrapCoord
  rw [if_pos (show m + 1 ≠ m by omega), show m + 1 = 1 + m * 1 by ring,
    Int.add_mul_emod_self_left]
  exact Int.emod_eq_of_lt (by norm_num) (by omega)

/-- Normalizing `-1` gives `m - 1` when `m ≥ 2` (Python `(-1) % m`). -/
theorem wrapCoord_neg_one {m : Int} (h2 : 2 ≤ m) : wrapCoord m (-1) = m - 1 := by
  unfold wrapCoord
  rw [if_pos (show (-1 : Int) ≠ m by omega),
    show (-1 : Int) = (m - 1) + m * (-1) by ring, Int.add_mul_emod_self_left]
  exact Int.emod_eq_of_lt (by omega) (by omega)

/-- With no allowed direction, `move` only sets the trapped flag. -/
theorem move_trapped_of_empty (rng : List Direction → Direction) (xmax ymax : Int)
    (bc : String) (occ : Int → Int → Bool) (s : Snake)
    (he : allowedList xmax ymax bc occ s = []) :
    s.move rng xmax ymax bc occ = { s with trapped := true } := by
  simp only [Snake.move, he]
  rfl

/-- With at least one allowed direction, `move` is the
pick/step/advance/normalize pipeline. -/
theorem move_of_not_trapped (rng : List Direction → Direction) (xmax ymax : Int)
    (bc : String) (occ : Int → Int → Bool) (s : Snake)
    (hne : allowedList xmax ymax bc occ s ≠ []) :
    s.move rng xmax ymax bc occ =
      normalize xmax ymax (advanceBody
        (applyDir xmax ymax bc (rng (allowedList xmax ymax bc occ s))
          { s with direction := some (rng (allowedList xmax ymax bc occ s)) })) := by
  simp only [Snake.move]
  rw [if_neg (fun h => hne (List.length_eq_zero.mp h))]

/-- The direction step never touches the body lists. -/
theorem applyDir_linexpos (xmax ymax : Int) (bc : String) (d : Direction) (u : Snake) :
    (applyDir xmax ymax bc d u).linexpos = u.linexpos := by
  cases d <;> (simp only [applyDir]; split <;> rfl)

/-- The direction step never touches the body lists. -/
theorem applyDir_lineypos (xmax ymax : Int) (bc : String) (d : Direction) (u : Snake) :
    (applyDir xmax ymax bc d u).lineypos = u.lineypos := by
  cases d <;> (simp only [applyDir]; split <;> rfl)

end Lemmas

/-- C1 counterexample: on a 10×10 periodic grid an agent with head at
`(10, 5)` (x = xmax) for which east is a legal choice lands, after the move,
at `x = 1`, not at `x = 0` as the claim states: the normalization computes
`(xmax + 1) % xmax = 1`. -/
theorem C1_counterexample :
    Direction.east ∈ allowedList 10 10 "periodic" occFree sEast ∧
    (Snake.move rngE 10 10 "periodic" occFree sEast).trapped = false ∧
    (Snake.move rngE 10 10 "periodic" occFree sEast).xpos = 1 ∧
    (Snake.move rngE 10 10 "periodic" occFree sEast).xpos ≠ 0 := by
  decide

/-- C2: during a tick of the periodic grid holding `sEast`, the snake moves
east off the `x = xmax = 10` edge, its body path acquires the un-normalized
coordinate 11, and `Grid.go`'s occupancy marking writes the cell `(11, 5)`,
whose first index lies outside `[0, xmax]` (numpy raises `IndexError` for
index 11 into an axis of size 11). -/
theorem C2_oob_write :
    Snake.init (10, 5) "east" 2 = some sEast ∧
    ((tick rngE gridPeriodic).snakes.getD 0 default).linexpos = [11, 10] ∧
    (tick rngE gridPeriodic).occupied 11 5 = true ∧
    ¬((11 : Int) ≤ 10) := by
  decide

/-- C3: in `gridWallAB`, `snakeA` becomes trapped on tick 1 (head still at
`(0, 0)`), but on tick 2 — after `snakeB` has vacated `(1, 0)` — the tick
loop again clears `snakeA`'s tail, recomputes its legality and moves it east
to `(1, 0)` while its trapped flag stays `true`: a trapped agent is not
skipped and its head changes on a later tick. -/
theorem C3_trapped_not_skipped :
    ((tick rngH gridWallAB).snakes.getD 0 default).trapped = true ∧
    ((tick rngH gridWallAB).snakes.getD 0 default).xpos = 0 ∧
    ((tick rngH gridWallAB).snakes.getD 0 default).ypos = 0 ∧
    ((tick rngH (tick rngH gridWallAB)).snakes.getD 0 default).trapped = true ∧
    ((tick rngH (tick rngH gridWallAB)).snakes.getD 0 default).xpos = 1 := by
  decide

/-- C4: in `gridWallCoil` every snake is trapped after the first tick, yet
`Grid.go` executes all `nSteps = 2` ticks: the all-trapped condition is the
`while` condition, which is tested only once because the inner `for` loop
ends in an unconditional `break`, so the loop begins a new tick after all
agents are already trapped. -/
theorem C4_loop_runs_after_all_trapped :
    allTrapped gridWallCoil = false ∧
    allTrapped (tick rngH gridWallCoil) = true ∧
    (Grid.go rngH gridWallCoil).2 = 2 := by
  decide

/-- C5: after a non-trapping east move of `sEast` under the periodic policy,
the first element of the body path is the un-normalized coordinate 11 while
the final head coordinate is 1: the body is advanced before the
normalization, so head and body front disagree at the east edge. -/
theorem C5_body_head_mismatch :
    (Snake.move rngE 10 10 "periodic" occFree sEast).trapped = false ∧
    (Snake.move rngE 10 10 "periodic" occFree sEast).xpos = 1 ∧
    (Snake.move rngE 10 10 "periodic" occFree sEast).linexpos = [11, 10] ∧
    (Snake.move rngE 10 10 "periodic" occFree sEast).linexpos.getD 0 0 ≠
      (Snake.move rngE 10 10 "periodic" occFree sEast).xpos := by
  decide

/-- C9 counterexample: the boundary policy string `"diag"` is neither `wall`
nor `periodic`, yet grid construction stores it without any error and
`Snake.move` under it silently returns a well-defined state: the snake is
not trapped and its head does not move.  There is no fatal error and there
is a silent default behaviour. -/
theorem C9_counterexample :
    (Grid.init [⟨1, 1, [1], [1], none, false⟩] (3, 3) "diag" 4).bc = "diag" ∧
    (Snake.move rngH 3 3 "diag" occFree ⟨1, 1, [1], [1], none, false⟩).trapped = false ∧
    (Snake.move rngH 3 3 "diag" occFree ⟨1, 1, [1], [1], none, false⟩).xpos = 1 ∧
    (Snake.move rngH 3 3 "diag" occFree ⟨1, 1, [1], [1], none, false⟩).ypos = 1 := by
  decide

/-- C6: under the `wall` policy a direction is in the computed allowed list
iff the head is not at the edge limiting that direction and the adjacent
destination cell is not occupied — the computed disallowed set is exactly
the spec's "at edge or destination occupied" rule, and the allowed set is
its complement in the four directions. -/
theorem C6_wall_disallowed_iff (xmax ymax : Int) (occ : Int → Int → Bool)
    (s : Snake) (d : Direction) :
    d ∈ allowedList xmax ymax "wall" occ s ↔
      ¬(atEdge xmax ymax s d ∨ occ (destCell s d).1 (destCell s d).2 = true) := by
  rw [allowedList, List.mem_filter]
  cases d <;>
    simp [dirList, disallowedDir, atEdge, destCell, not_or]

/-- Projection of the advance/normalize tail of `move` onto the x coordinate. -/
theorem normAdv_xpos (xmax ymax : Int) (u : Snake) :
    (normalize xmax ymax (advanceBody u)).xpos = wrapCoord xmax u.xpos := rfl

/-- Projection of the advance/normalize tail of `move` onto the y coordinate. -/
theorem normAdv_ypos (xmax ymax : Int) (u : Snake) :
    (normalize xmax ymax (advanceBody u)).ypos = wrapCoord ymax u.ypos := rfl

/-- The advance/normalize tail of `move` keeps an in-bounds head in bounds. -/
theorem inB_normalize_advanceBody {xmax ymax : Int} {u : Snake}
    (h : inB xmax ymax u) :
    inB xmax ymax (normalize xmax ymax (advanceBody u)) := by
  obtain ⟨u0, u1, u2, u3⟩ := h
  refine ⟨?_, ?_, ?_, ?_⟩
  · rw [normAdv_xpos, wrapCoord_id u0 u1]; exact u0
  · rw [normAdv_xpos, wrapCoord_id u0 u1]; exact u1
  · rw [normAdv_ypos, wrapCoord_id u2 u3]; exact u2
  · rw [normAdv_ypos, wrapCoord_id u2 u3]; exact u3

/-- Under the `wall` policy, the guarded direction step keeps the head in
bounds whatever direction is applied, because each step is conditioned on
not being at the corresponding edge. -/
theorem applyDir_wall_inB {xmax ymax : Int} (d : Direction) (u : Snake)
    (h : inB xmax ymax u) : inB xmax ymax (applyDir xmax ymax "wall" d u) := by
  obtain ⟨u0, u1, u2, u3⟩ := h
  cases d
  case north =>
    simp only [applyDir]
    split
    · next hc =>
      rcases hc with ⟨-, hlt⟩ | habs
      · exact ⟨u0, u1, show (0 : Int) ≤ u.ypos + 1 by omega,
          show u.ypos + 1 ≤ ymax by omega⟩
      · exact absurd habs (by decide)
    · exact ⟨u0, u1, u2, u3⟩
  case east =>
    simp only [applyDir]
    split
    · next hc =>
      rcases hc with ⟨-, hlt⟩ | habs
      · exact ⟨show (0 : Int) ≤ u.xpos + 1 by omega,
          show u.xpos + 1 ≤ xmax by omega, u2, u3⟩
      · exact absurd habs (by decide)
    · exact ⟨u0, u1, u2, u3⟩
  case south =>
    simp only [applyDir]
    split
    · next hc =>
      rcases hc with ⟨-, hlt⟩ | habs
      · exact ⟨u0, u1, show (0 : Int) ≤ u.ypos - 1 by omega,
          show u.ypos - 1 ≤ ymax by omega⟩
      · exact absurd habs (by decide)
    · exact ⟨u0, u1, u2, u3⟩
  case west =>
    simp only [applyDir]
    split
    · next hc =>
      rcases hc with ⟨-, hlt⟩ | habs
      · exact ⟨show (0 : Int) ≤ u.xpos - 1 by omega,
          show u.xpos - 1 ≤ xmax by omega, u2, u3⟩
      · exact absurd habs (by decide)
    · exact ⟨u0, u1, u2, u3⟩

/-- One `move` under the `wall` policy keeps the head in bounds. -/
theorem wallMove_inB (rng : List Direction → Direction) (xmax ymax : Int)
    (occ : Int → Int → Bool) (s : Snake) (h : inB xmax ymax s) :
    inB xmax ymax (s.move rng xmax ymax "wall" occ) := by
  by_cases he : allowedList xmax ymax "wall" occ s = []
  · rw [move_trapped_of_empty rng xmax ymax "wall" occ s he]
    exact h
  · rw [move_of_not_trapped rng xmax ymax "wall" occ s he]
    exact inB_normalize_advanceBody
      (applyDir_wall_inB (rng (allowedList xmax ymax "wall" occ s)) _ h)

/-- Any sequence of `wall` moves keeps the head in bounds. -/
theorem moveFold_wall_inB (xmax ymax : Int)
    (ticks : List ((List Direction → Direction) × String × (Int → Int → Bool))) :
    ∀ s : Snake, (∀ p ∈ ticks, p.2.1 = "wall") → inB xmax ymax s →
      inB xmax ymax (moveFold xmax ymax ticks s) := by
  induction ticks with
  | nil => intro s _ h; exact h
  | cons p ts ih =>
    intro s hw h
    simp only [moveFold, List.foldl_cons]
    refine ih _ (fun q hq => hw q (List.mem_cons_of_mem p hq)) ?_
    have hp : p.2.1 = "wall" := hw p (List.mem_cons_self p ts)
    rw [hp]
    exact wallMove_inB p.1 xmax ymax p.2.2 s h

/-- C7: under the `wall` policy, an agent whose head starts inside
`[0, xmax] × [0, ymax]` stays inside after every call to `move`, for every
sequence of ticks (arbitrary direction choices and occupancy snapshots per
tick): no coordinate ever exceeds or wraps past the bounds. -/
theorem C7_wall_containment (xmax ymax : Int)
    (ticks : List ((List Direction → Direction) × String × (Int → Int → Bool)))
    (hw : ∀ p ∈ ticks, p.2.1 = "wall") (s : Snake) (h : inB xmax ymax s) :
    inB xmax ymax (moveFold xmax ymax ticks s) :=
  moveFold_wall_inB xmax ymax ticks s hw h

/-- Witness for C7 on a concrete snake, grid and one-tick schedule. -/
theorem C7_wall_containment_witness :
    inB 3 3 (moveFold 3 3 [(rngH, "wall", occFree)] ⟨0, 0, [0], [0], none, false⟩) :=
  C7_wall_containment 3 3 [(rngH, "wall", occFree)]
    (by intro p hp; rw [List.mem_singleton] at hp; rw [hp])
    ⟨0, 0, [0], [0], none, false⟩ ⟨by norm_num, by norm_num, by norm_num, by norm_num⟩

/-- A single `move` preserves the length of both body lists: either the snake
traps and the body is untouched, or one coordinate is prepended and one
dropped. -/
theorem move_body_lengths (rng : List Direction → Direction) (xmax ymax : Int)
    (bc : String) (occ : Int → Int → Bool) (s : Snake) :
    (s.move rng xmax ymax bc occ).linexpos.length = s.linexpos.length ∧
    (s.move rng xmax ymax bc occ).lineypos.length = s.lineypos.length := by
  by_cases he : allowedList xmax ymax bc occ s = []
  · rw [move_trapped_of_empty rng xmax ymax bc occ s he]
    exact ⟨rfl, rfl⟩
  · rw [move_of_not_trapped rng xmax ymax bc occ s he]
    have len1 : ∀ u : Snake,
        (normalize xmax ymax (advanceBody u)).linexpos.length = u.linexpos.length := by
      intro u
      show ((u.xpos :: u.linexpos).dropLast).length = u.linexpos.length
      simp
    have len2 : ∀ u : Snake,
        (normalize xmax ymax (advanceBody u)).lineypos.length = u.lineypos.length := by
      intro u
      show ((u.ypos :: u.lineypos).dropLast).length = u.lineypos.length
      simp
    constructor
    · rw [len1, applyDir_linexpos]
    · rw [len2, applyDir_lineypos]

/-- Any sequence of moves preserves the length of both body lists. -/
theorem moveFold_body_lengths (xmax ymax : Int)
    (ticks : List ((List Direction → Direction) × String × (Int → Int → Bool))) :
    ∀ s : Snake,
      (moveFold xmax ymax ticks s).linexpos.length = s.linexpos.length ∧
      (moveFold xmax ymax ticks s).lineypos.length = s.lineypos.length := by
  induction ticks with
  | nil => intro s; exact ⟨rfl, rfl⟩
  | cons p ts ih =>
    intro s
    simp only [moveFold, List.foldl_cons]
    have h1 := move_body_lengths p.1 xmax ymax p.2.1 p.2.2 s
    have h2 := ih (Snake.move p.1 xmax ymax p.2.1 p.2.2 s)
    exact ⟨h2.1.trans h1.1, h2.2.trans h1.2⟩

/-- A successfully constructed snake has body lists of exactly the requested
length. -/
theorem init_body_lengths (pos : Int × Int) (orient : String) (L : Nat) (s : Snake)
    (hs : Snake.init pos orient L = some s) :
    s.linexpos.length = L ∧ s.lineypos.length = L := by
  have harange : ∀ a b : Int, (arangeStep a b L).length = L := by
    intro a b
    unfold arangeStep
    rw [List.length_map, List.length_range]
  unfold Snake.init at hs
  split_ifs at hs <;>
    first
      | (injection hs with h; subst h; constructor <;> simp [harange])
      | injection hs

/-- C8: an agent constructed with a valid orientation and length `L ≥ 1` has a
body path of exactly `L` coordinates right after construction and after any
sequence of `move` calls, whatever boundary policy, direction choices and
occupancy maps the ticks use. -/
theorem C8_body_length (pos : Int × Int) (orient : String) (L : Nat) (s : Snake)
    (hL : 1 ≤ L) (hs : Snake.init pos orient L = some s) (xmax ymax : Int)
    (ticks : List ((List Direction → Direction) × String × (Int → Int → Bool))) :
    s.linexpos.length = L ∧ s.lineypos.length = L ∧
    (moveFold xmax ymax ticks s).linexpos.length = L ∧
    (moveFold xmax ymax ticks s).lineypos.length = L := by
  obtain ⟨e1, e2⟩ := init_body_lengths pos orient L s hs
  obtain ⟨f1, f2⟩ := moveFold_body_lengths xmax ymax ticks s
  exact ⟨e1, e2, f1.trans e1, f2.trans e2⟩

/-- Witness for C8 on a concrete north-constructed snake of length 5 and a
one-tick schedule. -/
theorem C8_body_length_witness :
    (⟨5, 5, [5, 5, 5, 5, 5], [5, 4, 3, 2, 1], none, false⟩ : Snake).linexpos.length = 5 ∧
    (⟨5, 5, [5, 5, 5, 5, 5], [5, 4, 3, 2, 1], none, false⟩ : Snake).lineypos.length = 5 ∧
    (moveFold 10 10 [(rngH, "wall", occFree)]
      ⟨5, 5, [5, 5, 5, 5, 5], [5, 4, 3, 2, 1], none, false⟩).linexpos.length = 5 ∧
    (moveFold 10 10 [(rngH, "wall", occFree)]
      ⟨5, 5, [5, 5, 5, 5, 5], [5, 4, 3, 2, 1], none, false⟩).lineypos.length = 5 :=
  C8_body_length (5, 5) "north" 5 _ (by norm_num) (by decide) 10 10
    [(rngH, "wall", occFree)]

/-- Under `wall`, the north step fires exactly when the head is below the
north edge. -/
theorem applyDir_wall_north {xmax ymax : Int} {u : Snake} (h : u.ypos < ymax) :
    applyDir xmax ymax "wall" Direction.north u = { u with ypos := u.ypos + 1 } :=
  if_pos (Or.inl ⟨rfl, h⟩)

/-- Under `wall`, the east step fires exactly when the head is west of the
east edge. -/
theorem applyDir_wall_east {xmax ymax : Int} {u : Snake} (h : u.xpos < xmax) :
    applyDir xmax ymax "wall" Direction.east u = { u with xpos := u.xpos + 1 } :=
  if_pos (Or.inl ⟨rfl, h⟩)

/-- Under `wall`, the south step fires exactly when the head is above the
south edge. -/
theorem applyDir_wall_south {xmax ymax : Int} {u : Snake} (h : 0 < u.ypos) :
    applyDir xmax ymax "wall" Direction.south u = { u with ypos := u.ypos - 1 } :=
  if_pos (Or.inl ⟨rfl, h⟩)

/-- Under `wall`, the west step fires exactly when the head is east of the
west edge. -/
theorem applyDir_wall_west {xmax ymax : Int} {u : Snake} (h : 0 < u.xpos) :
    applyDir xmax ymax "wall" Direction.west u = { u with xpos := u.xpos - 1 } :=
  if_pos (Or.inl ⟨rfl, h⟩)

/-- C9 amended: an unknown boundary-policy string is accepted silently: no
direction is ever disallowed (the allowed list is the full direction set),
the trapped flag is never set, and the head coordinate of an in-bounds agent
is left unchanged by `move`. -/
theorem C9_unknown_bc_silent (rng : List Direction → Direction) (xmax ymax : Int)
    (bc : String) (occ : Int → Int → Bool) (s : Snake)
    (hw : bc ≠ "wall") (hp : bc ≠ "periodic") (h : inB xmax ymax s) :
    allowedList xmax ymax bc occ s = dirList ∧
    (s.move rng xmax ymax bc occ).trapped = s.trapped ∧
    (s.move rng xmax ymax bc occ).xpos = s.xpos ∧
    (s.move rng xmax ymax bc occ).ypos = s.ypos := by
  obtain ⟨h0, h1, h2, h3⟩ := h
  have hdis : ∀ d, disallowedDir xmax ymax bc occ s d = false := by
    intro d
    cases d <;> (simp only [disallowedDir]; rw [if_neg hw, if_neg hp])
  have hall : allowedList xmax ymax bc occ s = dirList := by
    unfold allowedList
    simp [List.filter_eq_self, hdis]
  have hne : allowedList xmax ymax bc occ s ≠ [] := by
    rw [hall]
    simp [dirList]
  have happ : applyDir xmax ymax bc (rng (allowedList xmax ymax bc occ s))
      { s with direction := some (rng (allowedList xmax ymax bc occ s)) } =
      { s with direction := some (rng (allowedList xmax ymax bc occ s)) } := by
    cases rng (allowedList xmax ymax bc occ s) <;>
      (simp only [applyDir];
       rw [if_neg (fun hc => hc.elim (fun hcc => hw hcc.1) hp)])
  rw [move_of_not_trapped rng xmax ymax bc occ s hne, happ]
  refine ⟨hall, rfl, ?_, ?_⟩
  · rw [normAdv_xpos]
    exact wrapCoord_id h0 h1
  · rw [normAdv_ypos]
    exact wrapCoord_id h2 h3

/-- Witness for C9's amended statement at the concrete policy string `"x"`. -/
theorem C9_unknown_bc_silent_witness :
    allowedList 3 3 "x" occFree ⟨1, 1, [1], [1], none, false⟩ = dirList ∧
    (Snake.move rngH 3 3 "x" occFree ⟨1, 1, [1], [1], none, false⟩).trapped = false ∧
    (Snake.move rngH 3 3 "x" occFree ⟨1, 1, [1], [1], none, false⟩).xpos = 1 ∧
    (Snake.move rngH 3 3 "x" occFree ⟨1, 1, [1], [1], none, false⟩).ypos = 1 :=
  C9_unknown_bc_silent rngH 3 3 "x" occFree ⟨1, 1, [1], [1], none, false⟩
    (by decide) (by decide) ⟨by norm_num, by norm_num, by norm_num, by norm_num⟩

/-- C10: on a grid with `xmax ≥ 2` and `ymax ≥ 2`, a `move` under `wall` or
`periodic` that does not leave the agent trapped always changes the head
coordinate: the chosen legal direction steps one axis by one, and the
normalization cannot map the stepped coordinate back onto the old one. -/
theorem C10_head_changes (rng : List Direction → Direction) (xmax ymax : Int)
    (bc : String) (occ : Int → Int → Bool) (s : Snake)
    (hbc : bc = "wall" ∨ bc = "periodic") (hx : 2 ≤ xmax) (hy : 2 ≤ ymax)
    (h : inB xmax ymax s) (hrng : ∀ l, l ≠ [] → rng l ∈ l)
    (hnt : (s.move rng xmax ymax bc occ).trapped = false) :
    (s.move rng xmax ymax bc occ).xpos ≠ s.xpos ∨
    (s.move rng xmax ymax bc occ).ypos ≠ s.ypos := by
  obtain ⟨h0, h1, h2, h3⟩ := h
  by_cases he : allowedList xmax ymax bc occ s = []
  · rw [move_trapped_of_empty rng xmax ymax bc occ s he] at hnt
    exact absurd hnt (by simp)
  · have hmem := hrng _ he
    have hdis : disallowedDir xmax ymax bc occ s
        (rng (allowedList xmax ymax bc occ s)) = false := by
      have h' := (List.mem_filter.mp hmem).2
      simpa using h'
    rw [move_of_not_trapped rng xmax ymax bc occ s he]
    rcases hbc with hbc | hbc <;> subst hbc
    · cases hD : rng (allowedList xmax ymax "wall" occ s)
      · rw [hD] at hdis
        have hym : s.ypos ≠ ymax := by
          intro hEq
          simp [disallowedDir, hEq] at hdis
        right
        rw [normAdv_ypos,
          applyDir_wall_north (u := { s with direction := some Direction.north })
            (show s.ypos < ymax by omega)]
        exact wrapCoord_succ_ne hy h2 h3
      · rw [hD] at hdis
        have hxm : s.xpos ≠ xmax := by
          intro hEq
          simp [disallowedDir, hEq] at hdis
        left
        rw [normAdv_xpos,
          applyDir_wall_east (u := { s with direction := some Direction.east })
            (show s.xpos < xmax by omega)]
        exact wrapCoord_succ_ne hx h0 h1
      · rw [hD] at hdis
        have hy0 : s.ypos ≠ 0 := by
          intro hEq
          simp [disallowedDir, hEq] at hdis
        right
        rw [normAdv_ypos,
          applyDir_wall_south (u := { s with direction := some Direction.south })
            (show (0 : Int) < s.ypos by omega)]
        exact wrapCoord_pred_ne hy h2 h3
      · rw [hD] at hdis
        have hx0 : s.xpos ≠ 0 := by
          intro hEq
          simp [disallowedDir, hEq] at hdis
        left
        rw [normAdv_xpos,
          applyDir_wall_west (u := { s with direction := some Direction.west })
            (show (0 : Int) < s.xpos by omega)]
        exact wrapCoord_pred_ne hx h0 h1
    · cases hD : rng (allowedList xmax ymax "periodic" occ s)
      · right
        show wrapCoord ymax (s.ypos + 1) ≠ s.ypos
        exact wrapCoord_succ_ne hy h2 h3
      · left
        show wrapCoord xmax (s.xpos + 1) ≠ s.xpos
        exact wrapCoord_succ_ne hx h0 h1
      · right
        show wrapCoord ymax (s.ypos - 1) ≠ s.ypos
        exact wrapCoord_pred_ne hy h2 h3
      · left
        show wrapCoord xmax (s.xpos - 1) ≠ s.xpos
        exact wrapCoord_pred_ne hx h0 h1

/-- Witness for C10 on a concrete wall grid: the head `(1, 1)` moves. -/
theorem C10_head_changes_witness :
    (Snake.move rngH 2 2 "wall" occFree ⟨1, 1, [1], [1], none, false⟩).xpos ≠ 1 ∨
    (Snake.move rngH 2 2 "wall" occFree ⟨1, 1, [1], [1], none, false⟩).ypos ≠ 1 :=
  C10_head_changes rngH 2 2 "wall" occFree ⟨1, 1, [1], [1], none, false⟩
    (Or.inl rfl) (by norm_num) (by norm_num)
    ⟨by norm_num, by norm_num, by norm_num, by norm_num⟩
    (fun l hl => headD_mem l .north hl) (by decide)

/-- C1 amended: under the `periodic` policy on a grid with `xmax ≥ 2` and
`ymax ≥ 2`, a non-trapping move across an edge lands one cell past the
opposite edge's `0`/`max` alias: north from `y = ymax` yields `y = 1`, east
from `x = xmax` yields `x = 1`, south from `y = 0` yields `y = ymax - 1`,
and west from `x = 0` yields `x = xmax - 1` (the edge coordinate `max` is
occupancy-identified with `0`, and the normalization computes
`(max + 1) % max = 1` and `(-1) % max = max - 1`). -/
theorem C1_periodic_wrap (rng : List Direction → Direction) (xmax ymax : Int)
    (occ : Int → Int → Bool) (s : Snake) (hx : 2 ≤ xmax) (hy : 2 ≤ ymax)
    (hne : allowedList xmax ymax "periodic" occ s ≠ []) :
    (rng (allowedList xmax ymax "periodic" occ s) = Direction.north → s.ypos = ymax →
      (s.move rng xmax ymax "periodic" occ).ypos = 1) ∧
    (rng (allowedList xmax ymax "periodic" occ s) = Direction.east → s.xpos = xmax →
      (s.move rng xmax ymax "periodic" occ).xpos = 1) ∧
    (rng (allowedList xmax ymax "periodic" occ s) = Direction.south → s.ypos = 0 →
      (s.move rng xmax ymax "periodic" occ).ypos = ymax - 1) ∧
    (rng (allowedList xmax ymax "periodic" occ s) = Direction.west → s.xpos = 0 →
      (s.move rng xmax ymax "periodic" occ).xpos = xmax - 1) := by
  rw [move_of_not_trapped rng xmax ymax "periodic" occ s hne]
  refine ⟨?_, ?_, ?_, ?_⟩ <;> intro hD hEdge <;> rw [hD]
  · show wrapCoord ymax (s.ypos + 1) = 1
    rw [hEdge]
    exact wrapCoord_max_succ hy
  · show wrapCoord xmax (s.xpos + 1) = 1
    rw [hEdge]
    exact wrapCoord_max_succ hx
  · show wrapCoord ymax (s.ypos - 1) = ymax - 1
    rw [hEdge, show (0 : Int) - 1 = -1 by norm_num]
    exact wrapCoord_neg_one hy
  · show wrapCoord xmax (s.xpos - 1) = xmax - 1
    rw [hEdge, show (0 : Int) - 1 = -1 by norm_num]
    exact wrapCoord_neg_one hx

/-- Witness for C1's amended statement: a north move from `(3, 10)` on a
10×10 periodic grid lands at `y = 1`. -/
theorem C1_periodic_wrap_witness :
    (Snake.move rngN 10 10 "periodic" occFree ⟨3, 10, [3, 3], [10, 9], none, false⟩).ypos = 1 :=
  (C1_periodic_wrap rngN 10 10 occFree ⟨3, 10, [3, 3], [10, 9], none, false⟩
    (by norm_num) (by norm_num) (by decide)).1 rfl rfl

end SnakeSim
